import Mathlib

/-!
Shallow embedding of the slider-pvp wager program
(src/programs/slider-pvp/src/lib.rs) and verification of its
natural-language specification.

Machine integers: the program uses u64 for amounts and i64 for
timestamps.  Amounts are embedded as `Nat` with the u64 range made
explicit where the source uses checked arithmetic (`checked_mul`,
`checked_sub`, `checked_div`, each returning `None` on overflow /
underflow, unwrapped with `.unwrap()` which aborts the instruction).
Timestamps are embedded as `Int` (i64 never comes close to its bounds
in the comparisons performed).

Accounts are identified by their public key, embedded as `Nat`.
A settlement operation returns, besides the updated on-chain state,
the list of transfers it performed out of the wager vault
(destination key, lamport amount).
-/

namespace SliderPvp

/-- Public keys are opaque identifiers; equality is all the program uses. -/
abbrev Pubkey := Nat

/-- Exclusive upper bound of the u64 range. -/
def U64LIMIT : Nat := 2 ^ 64

/-- Constant TIMEOUT_SECONDS from lib.rs (arbiter decision window). -/
def TIMEOUT_SECONDS : Int := 120

/-- Constant DEPOSIT_TIMEOUT_SECONDS from lib.rs (deposit window before cancel). -/
def DEPOSIT_TIMEOUT_SECONDS : Int := 30

/-- Constant WINNER_PERCENTAGE from lib.rs. -/
def WINNER_PERCENTAGE : Nat := 95

/-- Constant FEE_PERCENTAGE from lib.rs (declared in the source, unused by its logic). -/
def FEE_PERCENTAGE : Nat := 5

/-- Rust u64 `checked_mul`: `None` when the product leaves the u64 range. -/
def checked_mul (a b : Nat) : Option Nat :=
  if a * b < U64LIMIT then some (a * b) else none

/-- Rust u64 `checked_sub`: `None` when the subtrahend exceeds the minuend. -/
def checked_sub (a b : Nat) : Option Nat :=
  if b ≤ a then some (a - b) else none

/-- Rust u64 `checked_div`: `None` only on division by zero. -/
def checked_div (a b : Nat) : Option Nat :=
  if b = 0 then none else some (a / b)

/-- The error codes of the program (enum ErrorCode in lib.rs). -/
inductive ErrorCode where
  | SamePlayer
  | InvalidWagerAmount
  | AlreadyDeposited
  | UnauthorizedPlayer
  | WagerAlreadySettled
  | BothPlayersNotDeposited
  | UnauthorizedArbiter
  | InvalidWinner
  | TimeoutExpired
  | TimeoutNotExpired
  | BothPlayersAlreadyDeposited
  | DepositTimeoutNotExpired
deriving DecidableEq, Repr

/-- A failed instruction: either a `require!` violation carrying an
`ErrorCode`, an aborted `.unwrap()` of checked arithmetic (a panic, which
aborts the whole instruction with no state committed), or a vault debit
beyond the vault balance (see `vault_debit`).  An `Except.error` result
carries no state and no transfers: nothing is committed. -/
inductive Fail where
  | code : ErrorCode → Fail
  | arithOverflow : Fail
  | insufficientVaultFunds : Fail
deriving DecidableEq, Repr

/-- The Wager account (struct Wager in lib.rs).  The `bump` and
`vault_bump` PDA plumbing fields are irrelevant to every operation's
logic and are omitted. -/
structure Wager where
  player1 : Pubkey
  player2 : Pubkey
  arbiter : Pubkey
  fee_recipient : Pubkey
  wager_amount : Nat
  player1_deposited : Bool
  player2_deposited : Bool
  creation_time : Int
  start_time : Int
  winner : Option Nat
  is_settled : Bool
  initialization_cost : Nat
deriving DecidableEq, Repr

/-- On-chain state an instruction acts on: the wager account plus the
lamport balance of the wager's vault PDA. -/
structure ChainState where
  wager : Wager
  vault : Nat
deriving DecidableEq, Repr

/-- One transfer out of the vault: destination account key and amount. -/
abbrev Transfer := Pubkey × Nat

/-- Total amount paid out of the vault by a list of transfers. -/
def payoutTotal (tr : List Transfer) : Nat :=
  (tr.map Prod.snd).sum

/-- Modelled from the spec: the ledger/custody invariant that a vault
debit beyond the current credited balance must fail rather than
underflow.  The source performs the debit as a raw u64 `-=` on
`vault.try_borrow_mut_lamports()`; the checked semantics (Cargo
overflow-checks profile and the runtime lamport-conservation check) are
set outside src/, so they are modelled here per the spec's
ledger-service interface. -/
def vault_debit (balance amount : Nat) : Option Nat :=
  if amount ≤ balance then some (balance - amount) else none

/-- Instruction deposit_player1 (lib.rs lines 62-96).  The player's own
balance is not tracked; the system-program transfer credits the vault. -/
def deposit_player1 (st : ChainState) (now : Int) (player1_signer : Pubkey) :
    Except Fail (ChainState × List Transfer) :=
  let w := st.wager
  if w.is_settled = true then .error (.code .WagerAlreadySettled)
  else if w.player1_deposited = true then .error (.code .AlreadyDeposited)
  else if ¬ (player1_signer = w.player1) then .error (.code .UnauthorizedPlayer)
  else
    let vault := st.vault + w.wager_amount
    let w := { w with
      player1_deposited := true
      start_time := if w.player2_deposited = true then now else w.start_time }
    .ok ({ wager := w, vault := vault }, [])

/-- Instruction deposit_player2 (lib.rs lines 99-133). -/
def deposit_player2 (st : ChainState) (now : Int) (player2_signer : Pubkey) :
    Except Fail (ChainState × List Transfer) :=
  let w := st.wager
  if w.is_settled = true then .error (.code .WagerAlreadySettled)
  else if w.player2_deposited = true then .error (.code .AlreadyDeposited)
  else if ¬ (player2_signer = w.player2) then .error (.code .UnauthorizedPlayer)
  else
    let vault := st.vault + w.wager_amount
    let w := { w with
      player2_deposited := true
      start_time := if w.player1_deposited = true then now else w.start_time }
    .ok ({ wager := w, vault := vault }, [])

/-- Instruction declare_winner (lib.rs lines 136-189).  The
`winner_account` and `fee_recipient_account` arguments are the two
caller-supplied mutable AccountInfos of the DeclareWinner accounts
struct; the source computes `_winner_pubkey` from the wager record but
does not use it, and places no constraint tying either AccountInfo to
the record. -/
def declare_winner (st : ChainState) (now : Int) (arbiter_signer : Pubkey)
    (winner_account fee_recipient_account : Pubkey) (winner : Nat) :
    Except Fail (ChainState × List Transfer) :=
  let w := st.wager
  if w.is_settled = true then .error (.code .WagerAlreadySettled)
  else if ¬ (arbiter_signer = w.arbiter) then .error (.code .UnauthorizedArbiter)
  else if ¬ (w.player1_deposited = true ∧ w.player2_deposited = true) then
    .error (.code .BothPlayersNotDeposited)
  else if ¬ (winner = 1 ∨ winner = 2) then .error (.code .InvalidWinner)
  else if ¬ (now - w.start_time ≤ TIMEOUT_SECONDS) then .error (.code .TimeoutExpired)
  else
    match checked_mul w.wager_amount 2 with
    | none => .error .arithOverflow
    | some total_pool =>
      match checked_sub total_pool w.initialization_cost with
      | none => .error .arithOverflow
      | some distributable_pool =>
        match checked_mul distributable_pool WINNER_PERCENTAGE with
        | none => .error .arithOverflow
        | some scaled =>
          match checked_div scaled 100 with
          | none => .error .arithOverflow
          | some winner_amount =>
            match checked_sub distributable_pool winner_amount with
            | none => .error .arithOverflow
            | some fee_amount =>
              match vault_debit st.vault winner_amount with
              | none => .error .insufficientVaultFunds
              | some vault1 =>
                match vault_debit vault1 fee_amount with
                | none => .error .insufficientVaultFunds
                | some vault2 =>
                  .ok ({ wager := { w with winner := some winner, is_settled := true },
                         vault := vault2 },
                       [(winner_account, winner_amount),
                        (fee_recipient_account, fee_amount)])

/-- Instruction refund (lib.rs lines 192-229).  The `player1_account`
and `player2_account` arguments are the caller-supplied mutable
AccountInfos of the Refund accounts struct, unconstrained against the
wager record. -/
def refund (st : ChainState) (now : Int)
    (player1_account player2_account : Pubkey) :
    Except Fail (ChainState × List Transfer) :=
  let w := st.wager
  if w.is_settled = true then .error (.code .WagerAlreadySettled)
  else if ¬ (w.player1_deposited = true ∧ w.player2_deposited = true) then
    .error (.code .BothPlayersNotDeposited)
  else if ¬ (now - w.start_time > TIMEOUT_SECONDS) then .error (.code .TimeoutNotExpired)
  else
    match checked_mul w.wager_amount 2 with
    | none => .error .arithOverflow
    | some total_pool =>
      match checked_sub total_pool w.initialization_cost with
      | none => .error .arithOverflow
      | some distributable_pool =>
        match checked_div distributable_pool 2 with
        | none => .error .arithOverflow
        | some refund_amount =>
          match vault_debit st.vault refund_amount with
          | none => .error .insufficientVaultFunds
          | some vault1 =>
            match vault_debit vault1 refund_amount with
            | none => .error .insufficientVaultFunds
            | some vault2 =>
              .ok ({ wager := { w with is_settled := true }, vault := vault2 },
                   [(player1_account, refund_amount),
                    (player2_account, refund_amount)])

/-- Instruction cancel_wager (lib.rs lines 232-277).  The two account
arguments are the caller-supplied mutable AccountInfos of the
CancelWager accounts struct, unconstrained against the wager record. -/
def cancel_wager (st : ChainState) (now : Int)
    (player1_account player2_account : Pubkey) :
    Except Fail (ChainState × List Transfer) :=
  let w := st.wager
  if w.is_settled = true then .error (.code .WagerAlreadySettled)
  else if w.player1_deposited = true ∧ w.player2_deposited = true then
    .error (.code .BothPlayersAlreadyDeposited)
  else if ¬ (now - w.creation_time > DEPOSIT_TIMEOUT_SECONDS) then
    .error (.code .DepositTimeoutNotExpired)
  else
    match checked_sub w.wager_amount w.initialization_cost with
    | none => .error .arithOverflow
    | some refund_amount =>
      match (if w.player1_deposited = true then vault_debit st.vault refund_amount
             else some st.vault) with
      | none => .error .insufficientVaultFunds
      | some vault1 =>
        match (if w.player2_deposited = true then vault_debit vault1 refund_amount
               else some vault1) with
        | none => .error .insufficientVaultFunds
        | some vault2 =>
          .ok ({ wager := { w with is_settled := true }, vault := vault2 },
               (if w.player1_deposited = true then [(player1_account, refund_amount)] else []) ++
               (if w.player2_deposited = true then [(player2_account, refund_amount)] else []))

/-! ## Inversion helpers for the checked arithmetic -/

lemma checked_mul_some {a b c : Nat} (h : checked_mul a b = some c) :
    c = a * b ∧ a * b < U64LIMIT := by
  unfold checked_mul at h
  split at h
  · exact ⟨(Option.some.injEq _ _ ▸ h).symm, by assumption⟩
  · exact Option.noConfusion h

lemma checked_sub_some {a b c : Nat} (h : checked_sub a b = some c) :
    c = a - b ∧ b ≤ a := by
  unfold checked_sub at h
  split at h
  · exact ⟨(Option.some.injEq _ _ ▸ h).symm, by assumption⟩
  · exact Option.noConfusion h

lemma checked_div_some {a b c : Nat} (h : checked_div a b = some c) :
    c = a / b ∧ b ≠ 0 := by
  unfold checked_div at h
  split at h
  · exact Option.noConfusion h
  · exact ⟨(Option.some.injEq _ _ ▸ h).symm, by assumption⟩

lemma vault_debit_some {bal amt v : Nat} (h : vault_debit bal amt = some v) :
    v = bal - amt ∧ amt ≤ bal := by
  unfold vault_debit at h
  split at h
  · exact ⟨(Option.some.injEq _ _ ▸ h).symm, by assumption⟩
  · exact Option.noConfusion h

lemma vault_debit_over {bal amt : Nat} (h : bal < amt) : vault_debit bal amt = none := by
  unfold vault_debit
  split
  · omega
  · rfl

/-! ## Inversion of a successful declare_winner -/

/-- Everything a successful declare_winner implies: all preconditions
held, the pool arithmetic stayed in range and within the vault balance,
and the result state and transfers have the computed shape. -/
lemma declare_winner_ok {st : ChainState} {now : Int}
    {a wa fr : Pubkey} {w : Nat} {st' : ChainState} {tr : List Transfer}
    (h : declare_winner st now a wa fr w = .ok (st', tr)) :
    st.wager.is_settled = false ∧
    a = st.wager.arbiter ∧
    st.wager.player1_deposited = true ∧
    st.wager.player2_deposited = true ∧
    (w = 1 ∨ w = 2) ∧
    now - st.wager.start_time ≤ TIMEOUT_SECONDS ∧
    st.wager.wager_amount * 2 < U64LIMIT ∧
    st.wager.initialization_cost ≤ st.wager.wager_amount * 2 ∧
    (st.wager.wager_amount * 2 - st.wager.initialization_cost) * WINNER_PERCENTAGE
        / 100
      + ((st.wager.wager_amount * 2 - st.wager.initialization_cost)
          - (st.wager.wager_amount * 2 - st.wager.initialization_cost) * WINNER_PERCENTAGE / 100)
      ≤ st.vault ∧
    tr = [(wa, (st.wager.wager_amount * 2 - st.wager.initialization_cost) * WINNER_PERCENTAGE / 100),
          (fr, (st.wager.wager_amount * 2 - st.wager.initialization_cost)
             - (st.wager.wager_amount * 2 - st.wager.initialization_cost) * WINNER_PERCENTAGE / 100)] ∧
    st' = { wager := { st.wager with winner := some w, is_settled := true },
            vault := st.vault
              - (st.wager.wager_amount * 2 - st.wager.initialization_cost) * WINNER_PERCENTAGE / 100
              - ((st.wager.wager_amount * 2 - st.wager.initialization_cost)
                 - (st.wager.wager_amount * 2 - st.wager.initialization_cost) * WINNER_PERCENTAGE / 100) } := by
  unfold declare_winner at h
  dsimp only at h
  split_ifs at h with h1 h2 h3 h4 h5
  have c1 : st.wager.is_settled = false := by simpa using h1
  have c2 : a = st.wager.arbiter := by simpa using h2
  have c3 : st.wager.player1_deposited = true ∧ st.wager.player2_deposited = true := by
    simpa using h3
  have c4 : w = 1 ∨ w = 2 := by simpa using h4
  have c5 : now - st.wager.start_time ≤ TIMEOUT_SECONDS := by simpa using h5
  split at h
  · exact Except.noConfusion h
  next total_pool hmul =>
  split at h
  · exact Except.noConfusion h
  next distributable_pool hsub =>
  split at h
  · exact Except.noConfusion h
  next scaled hmul2 =>
  split at h
  · exact Except.noConfusion h
  next winner_amount hdiv =>
  split at h
  · exact Except.noConfusion h
  next fee_amount hsub2 =>
  split at h
  · exact Except.noConfusion h
  next vault1 hdeb1 =>
  split at h
  · exact Except.noConfusion h
  next vault2 hdeb2 =>
  obtain ⟨hmul1, hrange⟩ := checked_mul_some hmul
  obtain ⟨hsub1, hle1⟩ := checked_sub_some hsub
  obtain ⟨hmul2e, _⟩ := checked_mul_some hmul2
  obtain ⟨hdive, _⟩ := checked_div_some hdiv
  obtain ⟨hsub2e, hle2⟩ := checked_sub_some hsub2
  obtain ⟨hdeb1e, hdlb1⟩ := vault_debit_some hdeb1
  obtain ⟨hdeb2e, hdlb2⟩ := vault_debit_some hdeb2
  subst hmul1 hsub1 hmul2e hdive hsub2e hdeb1e hdeb2e
  rw [Except.ok.injEq, Prod.mk.injEq] at h
  obtain ⟨hst, htr⟩ := h
  refine ⟨c1, c2, c3.1, c3.2, c4, c5, hrange, hle1, by omega, htr.symm, ?_⟩
  rw [← hst]

/-! ## Inversion of a successful refund -/

/-- Everything a successful refund implies. -/
lemma refund_ok {st : ChainState} {now : Int}
    {a1 a2 : Pubkey} {st' : ChainState} {tr : List Transfer}
    (h : refund st now a1 a2 = .ok (st', tr)) :
    st.wager.is_settled = false ∧
    st.wager.player1_deposited = true ∧
    st.wager.player2_deposited = true ∧
    now - st.wager.start_time > TIMEOUT_SECONDS ∧
    st.wager.wager_amount * 2 < U64LIMIT ∧
    st.wager.initialization_cost ≤ st.wager.wager_amount * 2 ∧
    (st.wager.wager_amount * 2 - st.wager.initialization_cost) / 2
      + (st.wager.wager_amount * 2 - st.wager.initialization_cost) / 2 ≤ st.vault ∧
    tr = [(a1, (st.wager.wager_amount * 2 - st.wager.initialization_cost) / 2),
          (a2, (st.wager.wager_amount * 2 - st.wager.initialization_cost) / 2)] ∧
    st' = { wager := { st.wager with is_settled := true },
            vault := st.vault
              - (st.wager.wager_amount * 2 - st.wager.initialization_cost) / 2
              - (st.wager.wager_amount * 2 - st.wager.initialization_cost) / 2 } := by
  unfold refund at h
  dsimp only at h
  split_ifs at h with h1 h2 h3
  have c1 : st.wager.is_settled = false := by simpa using h1
  have c2 : st.wager.player1_deposited = true ∧ st.wager.player2_deposited = true := by
    simpa using h2
  have c3 : now - st.wager.start_time > TIMEOUT_SECONDS := by simpa using h3
  split at h
  · exact Except.noConfusion h
  next total_pool hmul =>
  split at h
  · exact Except.noConfusion h
  next distributable_pool hsub =>
  split at h
  · exact Except.noConfusion h
  next refund_amount hdiv =>
  split at h
  · exact Except.noConfusion h
  next vault1 hdeb1 =>
  split at h
  · exact Except.noConfusion h
  next vault2 hdeb2 =>
  obtain ⟨hmul1, hrange⟩ := checked_mul_some hmul
  obtain ⟨hsub1, hle1⟩ := checked_sub_some hsub
  obtain ⟨hdive, _⟩ := checked_div_some hdiv
  obtain ⟨hdeb1e, hdlb1⟩ := vault_debit_some hdeb1
  obtain ⟨hdeb2e, hdlb2⟩ := vault_debit_some hdeb2
  subst hmul1 hsub1 hdive hdeb1e hdeb2e
  rw [Except.ok.injEq, Prod.mk.injEq] at h
  obtain ⟨hst, htr⟩ := h
  refine ⟨c1, c2.1, c2.2, c3, hrange, hle1, by omega, htr.symm, ?_⟩
  rw [← hst]

/-! ## Inversion of a successful cancel_wager -/

/-- Everything a successful cancel_wager implies. -/
lemma cancel_wager_ok {st : ChainState} {now : Int}
    {a1 a2 : Pubkey} {st' : ChainState} {tr : List Transfer}
    (h : cancel_wager st now a1 a2 = .ok (st', tr)) :
    st.wager.is_settled = false ∧
    ¬ (st.wager.player1_deposited = true ∧ st.wager.player2_deposited = true) ∧
    now - st.wager.creation_time > DEPOSIT_TIMEOUT_SECONDS ∧
    st.wager.initialization_cost ≤ st.wager.wager_amount ∧
    tr = (if st.wager.player1_deposited = true
            then [(a1, st.wager.wager_amount - st.wager.initialization_cost)] else []) ++
         (if st.wager.player2_deposited = true
            then [(a2, st.wager.wager_amount - st.wager.initialization_cost)] else []) ∧
    payoutTotal tr ≤ st.vault ∧
    st'.wager = { st.wager with is_settled := true } ∧
    st'.vault + payoutTotal tr = st.vault := by
  unfold cancel_wager at h
  dsimp only at h
  split_ifs at h with h1 h2 h3
  · rename_i hp1 hp2
    exact absurd ⟨hp1, hp2⟩ h2
  · rename_i hp1 hp2
    have hp2b : st.wager.player2_deposited = false := by simpa using hp2
    split at h
    · exact Except.noConfusion h
    next refund_amount hsub =>
    split at h
    · exact Except.noConfusion h
    next vault1 hdeb1 =>
    dsimp only at h
    obtain ⟨hsub1, hle1⟩ := checked_sub_some hsub
    obtain ⟨hv1, hb1⟩ := vault_debit_some hdeb1
    subst hsub1 hv1
    rw [Except.ok.injEq, Prod.mk.injEq] at h
    obtain ⟨hst, htr⟩ := h
    refine ⟨by simpa using h1, h2, by simpa using h3, hle1, ?_, ?_, ?_, ?_⟩
    · rw [← htr, hp1, hp2b]
      simp
    · rw [← htr]
      simp [payoutTotal]
      omega
    · rw [← hst]
    · rw [← hst, ← htr]
      simp [payoutTotal]
      omega
  · rename_i hp1 hp2
    have hp1b : st.wager.player1_deposited = false := by simpa using hp1
    split at h
    · exact Except.noConfusion h
    next refund_amount hsub =>
    dsimp only at h
    split at h
    · exact Except.noConfusion h
    next vault2 hdeb2 =>
    obtain ⟨hsub1, hle1⟩ := checked_sub_some hsub
    obtain ⟨hv2, hb2⟩ := vault_debit_some hdeb2
    subst hsub1 hv2
    rw [Except.ok.injEq, Prod.mk.injEq] at h
    obtain ⟨hst, htr⟩ := h
    refine ⟨by simpa using h1, h2, by simpa using h3, hle1, ?_, ?_, ?_, ?_⟩
    · rw [← htr, hp1b, hp2]
      simp
    · rw [← htr]
      simp [payoutTotal]
      omega
    · rw [← hst]
    · rw [← hst, ← htr]
      simp [payoutTotal]
      omega
  · rename_i hp1 hp2
    have hp1b : st.wager.player1_deposited = false := by simpa using hp1
    have hp2b : st.wager.player2_deposited = false := by simpa using hp2
    split at h
    · exact Except.noConfusion h
    next refund_amount hsub =>
    dsimp only at h
    obtain ⟨hsub1, hle1⟩ := checked_sub_some hsub
    subst hsub1
    rw [Except.ok.injEq, Prod.mk.injEq] at h
    obtain ⟨hst, htr⟩ := h
    refine ⟨by simpa using h1, h2, by simpa using h3, hle1, ?_, ?_, ?_, ?_⟩
    · rw [← htr, hp1b, hp2b]
      simp
    · rw [← htr]
      simp [payoutTotal]
    · rw [← hst]
    · rw [← hst, ← htr]
      simp [payoutTotal]

/-! ## Small arithmetic facts -/

/-- The winner share, a truncating 95 percent, never exceeds the pool. -/
lemma winner_share_le (dp : Nat) : dp * WINNER_PERCENTAGE / 100 ≤ dp := by
  have hmul : dp * WINNER_PERCENTAGE ≤ dp * 100 :=
    Nat.mul_le_mul_left dp (by norm_num [WINNER_PERCENTAGE])
  calc dp * WINNER_PERCENTAGE / 100 ≤ dp * 100 / 100 := Nat.div_le_div_right hmul
    _ = dp := Nat.mul_div_cancel dp (by norm_num)

/-! ## Concrete states used to witness the theorems -/

/-- A wager of 1 SOL per player between players 1 and 2, arbiter 3, fee
recipient 4, both deposits made (timer started at 1000), no
initialization cost. -/
def activeWager : Wager :=
  { player1 := 1, player2 := 2, arbiter := 3, fee_recipient := 4
    wager_amount := 1000000000
    player1_deposited := true, player2_deposited := true
    creation_time := 0, start_time := 1000
    winner := none, is_settled := false
    initialization_cost := 0 }

/-- The active wager together with its fully funded vault. -/
def activeSt : ChainState := { wager := activeWager, vault := 2000000000 }

/-- The state reached from `activeSt` by declaring player 1 the winner. -/
def declaredSt : ChainState :=
  { wager := { activeWager with winner := some 1, is_settled := true }, vault := 0 }

/-- An already settled wager state. -/
def settledSt : ChainState :=
  { wager := { activeWager with winner := some 1, is_settled := true }, vault := 0 }

/-- A wager where only player 1 has deposited. -/
def halfSt : ChainState :=
  { wager := { activeWager with player2_deposited := false, start_time := 0 },
    vault := 1000000000 }

/-- A wager whose doubled stake leaves the u64 range. -/
def overflowSt : ChainState :=
  { wager := { activeWager with wager_amount := 2 ^ 63 }, vault := 0 }

/-! ## The claims -/

/-- C1: for every unsettled wager with both deposits made, a successful
declare_winner computes distributable_pool = 2 * wager_amount -
initialization_cost, winner_amount = distributable_pool * 95 / 100 with
truncating division, fee_amount = distributable_pool - winner_amount;
the two shares sum exactly to the distributable pool and the pool never
exceeds 2 * wager_amount. -/
theorem declare_winner_pool_split_exact
    (st : ChainState) (now : Int) (a wa fr : Pubkey) (w : Nat)
    (st' : ChainState) (tr : List Transfer)
    (h : declare_winner st now a wa fr w = .ok (st', tr)) :
    st.wager.is_settled = false ∧
    st.wager.player1_deposited = true ∧
    st.wager.player2_deposited = true ∧
    tr = [(wa, (2 * st.wager.wager_amount - st.wager.initialization_cost) * 95 / 100),
          (fr, (2 * st.wager.wager_amount - st.wager.initialization_cost)
             - (2 * st.wager.wager_amount - st.wager.initialization_cost) * 95 / 100)] ∧
    (2 * st.wager.wager_amount - st.wager.initialization_cost) * 95 / 100
      + ((2 * st.wager.wager_amount - st.wager.initialization_cost)
          - (2 * st.wager.wager_amount - st.wager.initialization_cost) * 95 / 100)
      = 2 * st.wager.wager_amount - st.wager.initialization_cost ∧
    2 * st.wager.wager_amount - st.wager.initialization_cost ≤ 2 * st.wager.wager_amount := by
  obtain ⟨c1, _, c3a, c3b, _, _, _, _, _, htr, _⟩ := declare_winner_ok h
  have hcomm : st.wager.wager_amount * 2 = 2 * st.wager.wager_amount := Nat.mul_comm _ _
  have hsh := winner_share_le (2 * st.wager.wager_amount - st.wager.initialization_cost)
  refine ⟨c1, c3a, c3b, ?_, by simp [WINNER_PERCENTAGE] at hsh ⊢; omega, Nat.sub_le _ _⟩
  rw [htr]
  simp [WINNER_PERCENTAGE, hcomm]

/-- Witness for C1 at the concrete 1-SOL wager. -/
theorem declare_winner_pool_split_exact_witness :
    activeSt.wager.is_settled = false ∧
    activeSt.wager.player1_deposited = true ∧
    activeSt.wager.player2_deposited = true ∧
    [((1 : Pubkey), 1900000000), ((4 : Pubkey), 100000000)]
      = [((1 : Pubkey),
          (2 * activeSt.wager.wager_amount - activeSt.wager.initialization_cost) * 95 / 100),
         ((4 : Pubkey),
          (2 * activeSt.wager.wager_amount - activeSt.wager.initialization_cost)
            - (2 * activeSt.wager.wager_amount - activeSt.wager.initialization_cost) * 95 / 100)] ∧
    (2 * activeSt.wager.wager_amount - activeSt.wager.initialization_cost) * 95 / 100
      + ((2 * activeSt.wager.wager_amount - activeSt.wager.initialization_cost)
          - (2 * activeSt.wager.wager_amount - activeSt.wager.initialization_cost) * 95 / 100)
      = 2 * activeSt.wager.wager_amount - activeSt.wager.initialization_cost ∧
    2 * activeSt.wager.wager_amount - activeSt.wager.initialization_cost
      ≤ 2 * activeSt.wager.wager_amount :=
  declare_winner_pool_split_exact activeSt 1000 3 1 4 1 declaredSt
    [(1, 1900000000), (4, 100000000)] rfl

/-- C3: once is_settled is true, deposit (either role), declare_winner,
refund and cancel_wager all fail with WagerAlreadySettled (an error
result carries no transfers and no state change); and every successful
declare_winner, refund or cancel_wager leaves is_settled true, so at
most one of them ever settles a given wager. -/
theorem settled_wager_rejects_all_operations
    (st : ChainState) (h : st.wager.is_settled = true) :
    (∀ now s, deposit_player1 st now s = .error (.code .WagerAlreadySettled)) ∧
    (∀ now s, deposit_player2 st now s = .error (.code .WagerAlreadySettled)) ∧
    (∀ now a wa fr w, declare_winner st now a wa fr w = .error (.code .WagerAlreadySettled)) ∧
    (∀ now a1 a2, refund st now a1 a2 = .error (.code .WagerAlreadySettled)) ∧
    (∀ now a1 a2, cancel_wager st now a1 a2 = .error (.code .WagerAlreadySettled)) ∧
    (∀ st₂ now a wa fr w st₃ tr, declare_winner st₂ now a wa fr w = .ok (st₃, tr) →
      st₃.wager.is_settled = true) ∧
    (∀ st₂ now a1 a2 st₃ tr, refund st₂ now a1 a2 = .ok (st₃, tr) →
      st₃.wager.is_settled = true) ∧
    (∀ st₂ now a1 a2 st₃ tr, cancel_wager st₂ now a1 a2 = .ok (st₃, tr) →
      st₃.wager.is_settled = true) := by
  refine ⟨?_, ?_, ?_, ?_, ?_, ?_, ?_, ?_⟩
  · intro now s
    simp [deposit_player1, h]
  · intro now s
    simp [deposit_player2, h]
  · intro now a wa fr w
    simp [declare_winner, h]
  · intro now a1 a2
    simp [refund, h]
  · intro now a1 a2
    simp [cancel_wager, h]
  · intro st₂ now a wa fr w st₃ tr hok
    obtain ⟨_, _, _, _, _, _, _, _, _, _, hst⟩ := declare_winner_ok hok
    rw [hst]
  · intro st₂ now a1 a2 st₃ tr hok
    obtain ⟨_, _, _, _, _, _, _, _, hst⟩ := refund_ok hok
    rw [hst]
  · intro st₂ now a1 a2 st₃ tr hok
    obtain ⟨_, _, _, _, _, _, hst, _⟩ := cancel_wager_ok hok
    rw [hst]

/-- Witness for C3: the settled example state rejects a deposit, a
winner declaration, a refund and a cancel. -/
theorem settled_wager_rejects_all_operations_witness :
    deposit_player1 settledSt 0 1 = .error (.code .WagerAlreadySettled) ∧
    declare_winner settledSt 0 3 1 4 1 = .error (.code .WagerAlreadySettled) ∧
    refund settledSt 2000 1 2 = .error (.code .WagerAlreadySettled) ∧
    cancel_wager settledSt 2000 1 2 = .error (.code .WagerAlreadySettled) :=
  ⟨(settled_wager_rejects_all_operations settledSt rfl).1 0 1,
   (settled_wager_rejects_all_operations settledSt rfl).2.2.1 0 3 1 4 1,
   (settled_wager_rejects_all_operations settledSt rfl).2.2.2.1 2000 1 2,
   (settled_wager_rejects_all_operations settledSt rfl).2.2.2.2.1 2000 1 2⟩

/-- C2 counterexample: a successful declare_winner call for winner 1
whose winner payout goes to account 99 although the recorded player1 is
account 1, and whose fee goes to account 77 although the recorded
fee_recipient is account 4.  The DeclareWinner accounts struct places no
constraint on either destination and the computed _winner_pubkey is
unused. -/
theorem declare_winner_unchecked_destination_cex :
    declare_winner activeSt 1000 3 99 77 1
      = .ok (declaredSt, [(99, 1900000000), (77, 100000000)]) ∧
    activeSt.wager.player1 = 1 ∧ (99 : Pubkey) ≠ 1 ∧
    activeSt.wager.fee_recipient = 4 ∧ (77 : Pubkey) ≠ 4 :=
  ⟨rfl, rfl, by decide, rfl, by decide⟩

/-- C2 (amended): for every successful declare_winner, winner_amount is
transferred to the caller-supplied winner_account and fee_amount to the
caller-supplied fee_recipient account; no check ties those accounts to
the players or fee recipient recorded in the wager. -/
theorem declare_winner_pays_supplied_accounts
    (st : ChainState) (now : Int) (a wa fr : Pubkey) (w : Nat)
    (st' : ChainState) (tr : List Transfer)
    (h : declare_winner st now a wa fr w = .ok (st', tr)) :
    tr.map Prod.fst = [wa, fr] ∧
    tr.map Prod.snd
      = [(2 * st.wager.wager_amount - st.wager.initialization_cost) * 95 / 100,
         (2 * st.wager.wager_amount - st.wager.initialization_cost)
           - (2 * st.wager.wager_amount - st.wager.initialization_cost) * 95 / 100] := by
  obtain ⟨_, _, _, _, _, _, _, _, _, htr, _⟩ := declare_winner_ok h
  have hcomm : st.wager.wager_amount * 2 = 2 * st.wager.wager_amount := Nat.mul_comm _ _
  rw [htr]
  simp [WINNER_PERCENTAGE, hcomm]

/-- Witness for C2's amended theorem: the counterexample call pays the
supplied accounts 99 and 77. -/
theorem declare_winner_pays_supplied_accounts_witness :
    ([((99 : Pubkey), (1900000000 : Nat)), (77, 100000000)].map Prod.fst = [99, 77]) ∧
    ([((99 : Pubkey), (1900000000 : Nat)), (77, 100000000)].map Prod.snd
      = [(2 * activeSt.wager.wager_amount - activeSt.wager.initialization_cost) * 95 / 100,
         (2 * activeSt.wager.wager_amount - activeSt.wager.initialization_cost)
           - (2 * activeSt.wager.wager_amount - activeSt.wager.initialization_cost) * 95 / 100]) :=
  declare_winner_pays_supplied_accounts activeSt 1000 3 99 77 1 declaredSt
    [(99, 1900000000), (77, 100000000)] rfl

/-- C4 counterexample: at wager_amount = 1_000_000_000 with zero
initialization cost, a declaration for player 1 pays winner_amount
1_900_000_000 and fee_amount 100_000_000, not the 1_805_000_000 and
95_000_000 the claim states. -/
theorem one_sol_scenario_cex :
    declare_winner activeSt 1000 3 1 4 1
      = .ok (declaredSt, [(1, 1900000000), (4, 100000000)]) ∧
    (1900000000 : Nat) ≠ 1805000000 ∧
    (100000000 : Nat) ≠ 95000000 :=
  ⟨rfl, by decide, by decide⟩

/-- C4 (amended): for wager_amount = 1_000_000_000 with zero
initialization cost, after both deposits a winner declaration for
player 1 pays winner_amount = 1_900_000_000 and fee_amount =
100_000_000. -/
theorem one_sol_scenario_payout :
    declare_winner activeSt 1000 3 1 4 1
      = .ok (declaredSt, [(1, 1900000000), (4, 100000000)]) := rfl

/-- The state reached from `activeSt` by a timeout refund. -/
def refundedSt : ChainState :=
  { wager := { activeWager with is_settled := true }, vault := 0 }

/-- The state reached from `halfSt` by a cancel. -/
def cancelledSt : ChainState :=
  { wager := { halfSt.wager with is_settled := true }, vault := 0 }

/-- C5: with the non-timing preconditions in place, declare_winner is
rejected with TimeoutExpired exactly when now - start_time exceeds
TIMEOUT_SECONDS, and refund is rejected with TimeoutNotExpired exactly
when now - start_time is within TIMEOUT_SECONDS; in particular at
now = start_time + 121 declare_winner is rejected with TimeoutExpired
and refund is not rejected for timing. -/
theorem timeout_window_declare_vs_refund
    (st : ChainState) (now : Int) (wa fr a1 a2 : Pubkey) (w : Nat)
    (hset : st.wager.is_settled = false)
    (hdep1 : st.wager.player1_deposited = true)
    (hdep2 : st.wager.player2_deposited = true)
    (hw : w = 1 ∨ w = 2) :
    (declare_winner st now st.wager.arbiter wa fr w = .error (.code .TimeoutExpired)
      ↔ TIMEOUT_SECONDS < now - st.wager.start_time) ∧
    (refund st now a1 a2 = .error (.code .TimeoutNotExpired)
      ↔ now - st.wager.start_time ≤ TIMEOUT_SECONDS) ∧
    declare_winner st (st.wager.start_time + 121) st.wager.arbiter wa fr w
      = .error (.code .TimeoutExpired) ∧
    refund st (st.wager.start_time + 121) a1 a2 ≠ .error (.code .TimeoutNotExpired) := by
  have h120 : TIMEOUT_SECONDS = (120 : Int) := rfl
  have hdecl : ∀ now2 : Int, TIMEOUT_SECONDS < now2 - st.wager.start_time →
      declare_winner st now2 st.wager.arbiter wa fr w = .error (.code .TimeoutExpired) := by
    intro now2 hlt
    unfold declare_winner
    dsimp only
    rw [if_neg (show ¬ (st.wager.is_settled = true) from by simp [hset]),
        if_neg (show ¬ ¬ (st.wager.arbiter = st.wager.arbiter) from by simp),
        if_neg (show ¬ ¬ (st.wager.player1_deposited = true ∧ st.wager.player2_deposited = true)
          from by simp [hdep1, hdep2]),
        if_neg (not_not_intro hw),
        if_pos (show ¬ (now2 - st.wager.start_time ≤ TIMEOUT_SECONDS) from by omega)]
  have hdecl2 : ∀ now2 : Int, now2 - st.wager.start_time ≤ TIMEOUT_SECONDS →
      declare_winner st now2 st.wager.arbiter wa fr w ≠ .error (.code .TimeoutExpired) := by
    intro now2 hle
    unfold declare_winner
    dsimp only
    rw [if_neg (show ¬ (st.wager.is_settled = true) from by simp [hset]),
        if_neg (show ¬ ¬ (st.wager.arbiter = st.wager.arbiter) from by simp),
        if_neg (show ¬ ¬ (st.wager.player1_deposited = true ∧ st.wager.player2_deposited = true)
          from by simp [hdep1, hdep2]),
        if_neg (not_not_intro hw),
        if_neg (not_not_intro hle)]
    repeat' split
    all_goals simp
  have href : ∀ now2 : Int, now2 - st.wager.start_time ≤ TIMEOUT_SECONDS →
      refund st now2 a1 a2 = .error (.code .TimeoutNotExpired) := by
    intro now2 hle
    unfold refund
    dsimp only
    rw [if_neg (show ¬ (st.wager.is_settled = true) from by simp [hset]),
        if_neg (show ¬ ¬ (st.wager.player1_deposited = true ∧ st.wager.player2_deposited = true)
          from by simp [hdep1, hdep2]),
        if_pos (show ¬ (now2 - st.wager.start_time > TIMEOUT_SECONDS) from by omega)]
  have href2 : ∀ now2 : Int, TIMEOUT_SECONDS < now2 - st.wager.start_time →
      refund st now2 a1 a2 ≠ .error (.code .TimeoutNotExpired) := by
    intro now2 hlt
    unfold refund
    dsimp only
    rw [if_neg (show ¬ (st.wager.is_settled = true) from by simp [hset]),
        if_neg (show ¬ ¬ (st.wager.player1_deposited = true ∧ st.wager.player2_deposited = true)
          from by simp [hdep1, hdep2]),
        if_neg (not_not_intro hlt)]
    repeat' split
    all_goals simp
  refine ⟨⟨?_, hdecl now⟩, ⟨?_, href now⟩, hdecl _ (by omega), href2 _ (by omega)⟩
  · intro h
    by_contra hc
    exact hdecl2 now (by omega) h
  · intro h
    by_contra hc
    exact href2 now (by omega) h

/-- Witness for C5 at the concrete 1-SOL wager (start_time = 1000):
declaring at 1121 hits TimeoutExpired, declaring at 1120 does not, and
refunding at 1121 is not rejected for timing. -/
theorem timeout_window_declare_vs_refund_witness :
    declare_winner activeSt (activeSt.wager.start_time + 121) activeSt.wager.arbiter 1 4 1
      = .error (.code .TimeoutExpired) ∧
    refund activeSt (activeSt.wager.start_time + 121) 1 2
      ≠ .error (.code .TimeoutNotExpired) ∧
    refund activeSt 1120 1 2 = .error (.code .TimeoutNotExpired) :=
  ⟨(timeout_window_declare_vs_refund activeSt 1121 1 4 1 2 1 rfl rfl rfl
      (Or.inl rfl)).2.2.1,
   (timeout_window_declare_vs_refund activeSt 1121 1 4 1 2 1 rfl rfl rfl
      (Or.inl rfl)).2.2.2,
   (timeout_window_declare_vs_refund activeSt 1120 1 4 1 2 1 rfl rfl rfl
      (Or.inl rfl)).2.1.mpr (by decide)⟩

/-- C6: every successful refund pays each player exactly
distributable_pool / 2 with distributable_pool = 2 * wager_amount -
initialization_cost; at wager_amount = 1_000_000_000 with zero cost each
player receives exactly 1_000_000_000. -/
theorem refund_splits_pool_evenly :
    (∀ st now a1 a2 st' tr, refund st now a1 a2 = .ok (st', tr) →
      tr = [(a1, (2 * st.wager.wager_amount - st.wager.initialization_cost) / 2),
            (a2, (2 * st.wager.wager_amount - st.wager.initialization_cost) / 2)]) ∧
    refund activeSt 1121 1 2 = .ok (refundedSt, [(1, 1000000000), (2, 1000000000)]) := by
  constructor
  · intro st now a1 a2 st' tr h
    obtain ⟨_, _, _, _, _, _, _, htr, _⟩ := refund_ok h
    have hcomm : st.wager.wager_amount * 2 = 2 * st.wager.wager_amount := Nat.mul_comm _ _
    rw [htr, hcomm]
  · rfl

/-- Witness for C6 at the concrete 1-SOL wager. -/
theorem refund_splits_pool_evenly_witness :
    [((1 : Pubkey), (1000000000 : Nat)), (2, 1000000000)]
      = [((1 : Pubkey),
          (2 * activeSt.wager.wager_amount - activeSt.wager.initialization_cost) / 2),
         ((2 : Pubkey),
          (2 * activeSt.wager.wager_amount - activeSt.wager.initialization_cost) / 2)] :=
  refund_splits_pool_evenly.1 activeSt 1121 1 2 refundedSt
    [(1, 1000000000), (2, 1000000000)] rfl

/-- C7: cancel_wager succeeds only when the wager is unsettled, not both
deposit flags are true, and now - creation_time exceeds
DEPOSIT_TIMEOUT_SECONDS; on success it pays wager_amount -
initialization_cost to each role whose deposit flag is true, nothing to
the other role, and leaves is_settled true. -/
theorem cancel_preconditions_and_payout
    (st : ChainState) (now : Int) (a1 a2 : Pubkey)
    (st' : ChainState) (tr : List Transfer)
    (h : cancel_wager st now a1 a2 = .ok (st', tr)) :
    st.wager.is_settled = false ∧
    ¬ (st.wager.player1_deposited = true ∧ st.wager.player2_deposited = true) ∧
    now - st.wager.creation_time > DEPOSIT_TIMEOUT_SECONDS ∧
    st'.wager.is_settled = true ∧
    tr = (if st.wager.player1_deposited = true
            then [(a1, st.wager.wager_amount - st.wager.initialization_cost)] else []) ++
         (if st.wager.player2_deposited = true
            then [(a2, st.wager.wager_amount - st.wager.initialization_cost)] else []) := by
  obtain ⟨c1, c2, c3, _, htr, _, hst, _⟩ := cancel_wager_ok h
  exact ⟨c1, c2, c3, by rw [hst], htr⟩

/-- Witness for C7: with only player 1 deposited, cancelling at
now = 31 refunds player 1 their full stake (zero cost) and pays player 2
nothing. -/
theorem cancel_preconditions_and_payout_witness :
    halfSt.wager.is_settled = false ∧
    ¬ (halfSt.wager.player1_deposited = true ∧ halfSt.wager.player2_deposited = true) ∧
    (31 : Int) - halfSt.wager.creation_time > DEPOSIT_TIMEOUT_SECONDS ∧
    cancelledSt.wager.is_settled = true ∧
    [((1 : Pubkey), (1000000000 : Nat))]
      = (if halfSt.wager.player1_deposited = true
           then [((1 : Pubkey), halfSt.wager.wager_amount - halfSt.wager.initialization_cost)]
           else []) ++
        (if halfSt.wager.player2_deposited = true
           then [((2 : Pubkey), halfSt.wager.wager_amount - halfSt.wager.initialization_cost)]
           else []) :=
  cancel_preconditions_and_payout halfSt 31 1 2 cancelledSt [(1, 1000000000)] rfl

/-- C8: when the pool arithmetic of declare_winner or refund leaves the
u64 range (doubling the stake overflows, or the initialization cost
exceeds the doubled stake), the operation aborts with the arithmetic
failure before any transfer; an error result carries no transfers and
no state change, so nothing wraps or clamps. -/
theorem arithmetic_overflow_aborts
    (st : ChainState) (now : Int) (wa fr a1 a2 : Pubkey) (w : Nat)
    (hset : st.wager.is_settled = false)
    (hdep1 : st.wager.player1_deposited = true)
    (hdep2 : st.wager.player2_deposited = true)
    (hover : U64LIMIT ≤ st.wager.wager_amount * 2 ∨
             st.wager.wager_amount * 2 < st.wager.initialization_cost) :
    (w = 1 ∨ w = 2 → now - st.wager.start_time ≤ TIMEOUT_SECONDS →
      declare_winner st now st.wager.arbiter wa fr w = .error .arithOverflow) ∧
    (TIMEOUT_SECONDS < now - st.wager.start_time →
      refund st now a1 a2 = .error .arithOverflow) := by
  constructor
  · intro hw hle
    unfold declare_winner
    dsimp only
    rw [if_neg (show ¬ (st.wager.is_settled = true) from by simp [hset]),
        if_neg (show ¬ ¬ (st.wager.arbiter = st.wager.arbiter) from by simp),
        if_neg (show ¬ ¬ (st.wager.player1_deposited = true ∧ st.wager.player2_deposited = true)
          from by simp [hdep1, hdep2]),
        if_neg (not_not_intro hw),
        if_neg (not_not_intro hle)]
    by_cases hr : st.wager.wager_amount * 2 < U64LIMIT
    · rw [show checked_mul st.wager.wager_amount 2 = some (st.wager.wager_amount * 2) from by
        unfold checked_mul
        rw [if_pos hr]]
      dsimp only
      rw [show checked_sub (st.wager.wager_amount * 2) st.wager.initialization_cost = none from by
        unfold checked_sub
        rw [if_neg (by omega)]]
    · rw [show checked_mul st.wager.wager_amount 2 = none from by
        unfold checked_mul
        rw [if_neg hr]]
  · intro hlt
    unfold refund
    dsimp only
    rw [if_neg (show ¬ (st.wager.is_settled = true) from by simp [hset]),
        if_neg (show ¬ ¬ (st.wager.player1_deposited = true ∧ st.wager.player2_deposited = true)
          from by simp [hdep1, hdep2]),
        if_neg (not_not_intro hlt)]
    by_cases hr : st.wager.wager_amount * 2 < U64LIMIT
    · rw [show checked_mul st.wager.wager_amount 2 = some (st.wager.wager_amount * 2) from by
        unfold checked_mul
        rw [if_pos hr]]
      dsimp only
      rw [show checked_sub (st.wager.wager_amount * 2) st.wager.initialization_cost = none from by
        unfold checked_sub
        rw [if_neg (by omega)]]
    · rw [show checked_mul st.wager.wager_amount 2 = none from by
        unfold checked_mul
        rw [if_neg hr]]

/-- Witness for C8 at a stake of 2^63 lamports, whose doubling leaves
the u64 range. -/
theorem arithmetic_overflow_aborts_witness :
    declare_winner overflowSt 1000 3 1 4 1 = .error .arithOverflow ∧
    refund overflowSt 2000 1 2 = .error .arithOverflow :=
  ⟨(arithmetic_overflow_aborts overflowSt 1000 1 4 1 2 1 rfl rfl rfl
      (Or.inl (by decide))).1 (Or.inl rfl) (by decide),
   (arithmetic_overflow_aborts overflowSt 2000 1 4 1 2 1 rfl rfl rfl
      (Or.inl (by decide))).2 (by decide)⟩

/-- C9 (the vault-debit semantics are modelled from the spec, see
`vault_debit`): every successful settlement debits the vault by exactly
the total it pays out, which never exceeds the vault balance, so the
custody balance never goes below zero; a debit beyond the balance
fails. -/
theorem custody_never_overdrawn :
    (∀ st now a wa fr w st' tr, declare_winner st now a wa fr w = .ok (st', tr) →
      payoutTotal tr ≤ st.vault ∧ st'.vault + payoutTotal tr = st.vault) ∧
    (∀ st now a1 a2 st' tr, refund st now a1 a2 = .ok (st', tr) →
      payoutTotal tr ≤ st.vault ∧ st'.vault + payoutTotal tr = st.vault) ∧
    (∀ st now a1 a2 st' tr, cancel_wager st now a1 a2 = .ok (st', tr) →
      payoutTotal tr ≤ st.vault ∧ st'.vault + payoutTotal tr = st.vault) ∧
    (∀ bal amt, bal < amt → vault_debit bal amt = none) := by
  refine ⟨?_, ?_, ?_, ?_⟩
  · intro st now a wa fr w st' tr h
    obtain ⟨_, _, _, _, _, _, _, _, hvault, htr, hst⟩ := declare_winner_ok h
    subst htr
    subst hst
    simp only [payoutTotal, List.map_cons, List.map_nil, List.sum_cons, List.sum_nil]
    constructor <;> omega
  · intro st now a1 a2 st' tr h
    obtain ⟨_, _, _, _, _, _, hvault, htr, hst⟩ := refund_ok h
    subst htr
    subst hst
    simp only [payoutTotal, List.map_cons, List.map_nil, List.sum_cons, List.sum_nil]
    constructor <;> omega
  · intro st now a1 a2 st' tr h
    obtain ⟨_, _, _, _, _, hle, _, hsum⟩ := cancel_wager_ok h
    exact ⟨hle, hsum⟩
  · intro bal amt hlt
    exact vault_debit_over hlt

/-- Witness for C9 on the concrete winner declaration from the funded
1-SOL wager: it pays out exactly the vault balance and leaves zero. -/
theorem custody_never_overdrawn_witness :
    payoutTotal [((1 : Pubkey), (1900000000 : Nat)), (4, 100000000)] ≤ activeSt.vault ∧
    declaredSt.vault + payoutTotal [((1 : Pubkey), (1900000000 : Nat)), (4, 100000000)]
      = activeSt.vault :=
  custody_never_overdrawn.1 activeSt 1000 3 1 4 1 declaredSt
    [(1, 1900000000), (4, 100000000)] rfl

/-- C10: refund and cancel_wager place no identity check on the payout
destinations: replacing the two supplied destination accounts by any
other pair leaves the outcome and the amounts unchanged, and the
payouts go to whatever accounts were supplied. -/
theorem refund_cancel_ignore_destination_identity :
    (∀ st now a1 a2 b1 b2 st' tr, refund st now a1 a2 = .ok (st', tr) →
      ∃ tr2, refund st now b1 b2 = .ok (st', tr2) ∧
        tr2.map Prod.fst = [b1, b2] ∧ tr2.map Prod.snd = tr.map Prod.snd) ∧
    (∀ st now a1 a2 b1 b2 st' tr, cancel_wager st now a1 a2 = .ok (st', tr) →
      ∃ tr2, cancel_wager st now b1 b2 = .ok (st', tr2) ∧
        tr2.map Prod.fst
          = (if st.wager.player1_deposited = true then [b1] else []) ++
            (if st.wager.player2_deposited = true then [b2] else []) ∧
        tr2.map Prod.snd = tr.map Prod.snd) := by
  constructor
  · intro st now a1 a2 b1 b2 st' tr h
    unfold refund at h ⊢
    dsimp only at h ⊢
    split_ifs at h with h1 h2 h3
    rw [if_neg h1, if_neg (not_not_intro h2), if_neg (not_not_intro h3)]
    split at h
    · exact Except.noConfusion h
    next total_pool hmul =>
    split at h
    · exact Except.noConfusion h
    next distributable_pool hsub =>
    split at h
    · exact Except.noConfusion h
    next refund_amount hdiv =>
    split at h
    · exact Except.noConfusion h
    next vault1 hdeb1 =>
    split at h
    · exact Except.noConfusion h
    next vault2 hdeb2 =>
    rw [Except.ok.injEq, Prod.mk.injEq] at h
    obtain ⟨hst, htr⟩ := h
    refine ⟨[(b1, refund_amount), (b2, refund_amount)], by rw [hst], by simp, ?_⟩
    rw [← htr]
    simp
  · intro st now a1 a2 b1 b2 st' tr h
    unfold cancel_wager at h ⊢
    dsimp only at h ⊢
    split_ifs at h with h1 h2 h3
    · rename_i hp1 hp2
      exact absurd ⟨hp1, hp2⟩ h2
    · rename_i hp1 hp2
      have hp2b : st.wager.player2_deposited = false := by simpa using hp2
      rw [if_neg h1, if_neg h2, if_neg (not_not_intro h3)]
      simp only [hp1, hp2b, Bool.false_eq_true, if_true, if_false, eq_self_iff_true] at h ⊢
      split at h
      · exact Except.noConfusion h
      next refund_amount hsub =>
      split at h
      · exact Except.noConfusion h
      next vault1 hdeb1 =>
      rw [Except.ok.injEq, Prod.mk.injEq] at h
      obtain ⟨hst, htr⟩ := h
      refine ⟨[(b1, refund_amount)] ++ [], by rw [hst], by simp, ?_⟩
      rw [← htr]
      simp
    · rename_i hp1 hp2
      have hp1b : st.wager.player1_deposited = false := by simpa using hp1
      rw [if_neg h1, if_neg h2, if_neg (not_not_intro h3)]
      simp only [hp1b, hp2, Bool.false_eq_true, if_true, if_false, eq_self_iff_true] at h ⊢
      split at h
      · exact Except.noConfusion h
      next refund_amount hsub =>
      split at h
      · exact Except.noConfusion h
      next vault2 hdeb2 =>
      rw [Except.ok.injEq, Prod.mk.injEq] at h
      obtain ⟨hst, htr⟩ := h
      refine ⟨([] : List Transfer) ++ [(b2, refund_amount)], by rw [hst], by simp, ?_⟩
      rw [← htr]
      simp
    · rename_i hp1 hp2
      have hp1b : st.wager.player1_deposited = false := by simpa using hp1
      have hp2b : st.wager.player2_deposited = false := by simpa using hp2
      rw [if_neg h1, if_neg h2, if_neg (not_not_intro h3)]
      simp only [hp1b, hp2b, Bool.false_eq_true, if_false] at h ⊢
      split at h
      · exact Except.noConfusion h
      next refund_amount hsub =>
      rw [Except.ok.injEq, Prod.mk.injEq] at h
      obtain ⟨hst, htr⟩ := h
      refine ⟨([] : List Transfer) ++ [], by rw [hst], by simp, ?_⟩
      rw [← htr]

/-- Witness for C10: the successful refund to the recorded players 1, 2
succeeds identically when paid to unrelated accounts 7, 8. -/
theorem refund_cancel_ignore_destination_identity_witness :
    ∃ tr2, refund activeSt 1121 7 8 = .ok (refundedSt, tr2) ∧
      tr2.map Prod.fst = [7, 8] ∧
      tr2.map Prod.snd = ([((1 : Pubkey), (1000000000 : Nat)), (2, 1000000000)]).map Prod.snd :=
  refund_cancel_ignore_destination_identity.1 activeSt 1121 1 2 7 8 refundedSt
    [(1, 1000000000), (2, 1000000000)] rfl

end SliderPvp
